import Mathlib

/-!
Shallow embedding of the per-conversation message-window cache
(`History` in `src/Telegram/SourceFiles/history/history.cpp`) and proofs
about its unread-mention tracking, read cursors, unread count, chat-list
projection, draft promotion, slice splicing and front-block building.

Modelling conventions:
* `MsgId` and `TimeId` are `Int` (the source uses 32-bit ints; no claim
  depends on wrap-around, all relevant ids stay far below `2^31`).
* `std::optional<T>` is `Option T`; `std::optional<HistoryItem*>` is
  `Option (Option Item)` (`none` = unknown, `some none` = known-null).
* Assertion failures (`Assert` / `Expects`) are modelled by returning
  `none` from an `Option History`-valued function.
* Effects on collaborators outside the Window (session storage, shared
  media, notifications manager, UI repaints, remote requests) are not part
  of the Window state and are noted by comments where the source performs
  them.  Peer-side data that the Window reads back (bot/participant lists,
  markup senders) is carried inside `Peer`.
* Raw `MTPMessage` payloads are modelled as already-decoded `Item` values;
  `createItem` fails exactly on a zero message id, as in the source.
-/

namespace Tdesktop

/-- Message id type of the source (`MsgId`, a 32-bit integer). -/
abbrev MsgId := Int

/-- Time stamp type of the source (`TimeId`). -/
abbrev TimeId := Int

/-- Modelled from the spec: `ServerMaxMsgId` (declared outside this file)
is the exclusive upper bound of the server-assigned message-id space;
locally-originated items use ids at or above it. -/
def ServerMaxMsgId : MsgId := 0x3FFFFFFF

/-- Modelled from the spec: `IsServerMsgId` (declared outside this file)
holds for ids assigned by the remote store: positive and below
`ServerMaxMsgId`. -/
def IsServerMsgId (id : MsgId) : Prop := 0 < id ∧ id < ServerMaxMsgId

instance (id : MsgId) : Decidable (IsServerMsgId id) := by
  unfold IsServerMsgId; infer_instance

/-- Modelled from the spec: `std::numeric_limits<MsgId>::max()` for the
32-bit `MsgId` type used by the constructor for bot conversations. -/
def MsgIdMax : MsgId := 2147483647

/-- `kNewBlockEachMessage`: a new block is allocated once the last one
holds this many messages. -/
def kNewBlockEachMessage : Nat := 50

/-- `UnreadMentionType` of the source: a mention arriving live (`New`)
versus one loaded from history (`Existing`). -/
inductive UnreadMentionType where
  | New
  | Existing
deriving DecidableEq

/-- `NewMessageType` of the source. -/
inductive NewMessageType where
  | Unread
  | Last
  | Existing
deriving DecidableEq

/-- `MessageCursor` of the source (text-edit cursor state). -/
structure MessageCursor where
  position : Int
  anchor : Int
  scroll : Int
deriving DecidableEq

/-- `Data::Draft` of the source: text, reply target, cursor, preview flag
and cloud timestamp. -/
structure Draft where
  textWithTags : String
  msgId : MsgId
  cursor : MessageCursor
  previewCancelled : Bool
  date : TimeId
deriving DecidableEq

/-- The peer kind: a user (with bot flag), a legacy group (`chat`) or a
channel (with megagroup flag). -/
inductive PeerKind where
  | user : Bool → PeerKind
  | chat
  | channel : Bool → PeerKind
deriving DecidableEq

/-- The slice of `PeerData` that `history.cpp` reads or writes: kind,
migration links, channel membership and invite data, and the member/bot
bookkeeping consulted by the reply-keyboard logic. -/
structure Peer where
  kind : PeerKind
  migrateToSet : Bool
  migrateFromSet : Bool
  amIn : Bool
  inviter : Int
  inviterLoaded : Bool
  inviterIsSelf : Bool
  inviteDate : TimeId
  joinedMessageFound : Bool
  canWrite : Bool
  participants : List Int
  bots : List Int
  botStatus : Int
  markupSenders : List Int
deriving DecidableEq

/-- `peer->isChannel()`. -/
def Peer.isChannel (p : Peer) : Bool :=
  match p.kind with
  | .channel _ => true
  | _ => false

/-- `peer->isMegagroup()`. -/
def Peer.isMegagroup (p : Peer) : Bool :=
  match p.kind with
  | .channel mega => mega
  | _ => false

/-- `peer->isChat()`. -/
def Peer.isChat (p : Peer) : Bool :=
  match p.kind with
  | .chat => true
  | _ => false

/-- `peer->asUser() && user->botInfo`. -/
def Peer.isBotUser (p : Peer) : Bool :=
  match p.kind with
  | .user bot => bot
  | _ => false

/-- One message or service event (`HistoryItem`), with the fields of the
item that `history.cpp` inspects.  `mainView` records whether the item
already had a visual attachment in some window before the call under
study; items stored in `History.blocks` are attached by construction. -/
structure Item where
  id : MsgId
  date : TimeId
  out : Bool
  unread : Bool
  isGroupMigrate : Bool
  isGroupEssential : Bool
  isUnreadMention : Bool
  fromId : Int
  authorId : Int
  fromIsUser : Bool
  fromIsBot : Bool
  authorIsUser : Bool
  mainView : Bool
  definesReplyKeyboard : Bool
  keyboardSelective : Bool
  keyboardHideSentinel : Bool
  mentionsMe : Bool
  groupId : Int
  serviceDeleteUserId : Int
deriving DecidableEq

/-- The transient front-block builder (`BuildingBlock`): whether its block
was already allocated, and how many items are still expected. -/
structure BuildingBlock where
  hasBlock : Bool
  expectedItemsCount : Int
deriving DecidableEq

/-- The Window state (`History`): block sequence, load-edge flags, read
cursors, unread state, drafts, keyboard tracking, notification queue and
send-action timers.  A block is a list of items; `lastMessage` and
`chatListMessage` use the `Option (Option _)` encoding of
`std::optional<HistoryItem*>`.  `migrateFromChatListMessage` carries the
`_chatListMessage` of the sibling legacy-group window consulted by the
chat-list projection of a migrated megagroup. -/
structure History where
  peer : Peer
  blocks : List (List Item)
  loadedAtTop : Bool
  loadedAtBottom : Bool
  lastMessage : Option (Option Item)
  chatListMessage : Option (Option Item)
  chatListTimeId : TimeId
  inboxReadBefore : Option MsgId
  outboxReadBefore : Option MsgId
  unreadCount : Option Int
  unreadMark : Bool
  unreadMentions : Finset MsgId
  unreadMentionsCount : Option Int
  buildingFrontBlock : Option BuildingBlock
  notifies : List Item
  localDraft : Option Draft
  cloudDraft : Option Draft
  joinedMessage : Option Item
  firstUnreadView : Option Item
  unreadBarView : Option Item
  scrollTopItem : Option Item
  lastKeyboardInited : Bool
  lastKeyboardUsed : Bool
  lastKeyboardId : MsgId
  lastKeyboardHiddenId : MsgId
  lastKeyboardFrom : Int
  typing : List (Int × Int)
  sendActions : List (Int × Int)
  migrateFromChatListMessage : Option (Option Item)
deriving DecidableEq

/-- `item->mainView()` as seen by this window: the item is attached inside
one of this window's blocks, or carried a pre-existing attachment. -/
def History.hasMainView (h : History) (item : Item) : Prop :=
  item ∈ h.blocks.flatten ∨ item.mainView = true

instance (h : History) (item : Item) : Decidable (h.hasMainView item) := by
  unfold History.hasMainView; infer_instance

/-- `isBuildingFrontBlock()`. -/
def History.isBuildingFrontBlock (h : History) : Prop :=
  h.buildingFrontBlock ≠ none

instance (h : History) : Decidable h.isBuildingFrontBlock := by
  unfold History.isBuildingFrontBlock; infer_instance

/-- `History::clearLastKeyboard` (the in-window effect; the bot-keyboard
repaint through the main widget is a UI collaborator call). -/
def History.clearLastKeyboard (h : History) : History :=
  let h :=
    if h.lastKeyboardId ≠ 0 then
      let h :=
        if h.lastKeyboardId = h.lastKeyboardHiddenId then
          { h with lastKeyboardHiddenId := 0 }
        else h
      { h with lastKeyboardId := 0 }
    else h
  { h with lastKeyboardInited := true, lastKeyboardFrom := 0 }

/-- `History::setUnreadMentionsCount`: clamps the reported count up to the
locally tracked set size; the returned flag records whether the API-warning
log line fired (dialogs-mode notification effects are external). -/
def History.setUnreadMentionsCount (h : History) (count : Int) :
    History × Bool :=
  let logged := decide ((h.unreadMentions.card : Int) > count)
  let count :=
    if (h.unreadMentions.card : Int) > count then (h.unreadMentions.card : Int)
    else count
  ({ h with unreadMentionsCount := some count }, logged)

/-- `History::addToUnreadMentions`; the returned flag is the function's
return value (whether the id was accepted into the tracked set). -/
def History.addToUnreadMentions (h : History) (msgId : MsgId)
    (type : UnreadMentionType) : History × Bool :=
  if h.peer.isChannel ∧ ¬h.peer.isMegagroup then (h, false)
  else
    match h.unreadMentionsCount with
    | some c =>
      if (h.unreadMentions.card : Int) ≥ c then
        if type = .New then
          let h1 := { h with unreadMentions := insert msgId h.unreadMentions }
          ((h1.setUnreadMentionsCount (c + 1)).1, true)
        else (h, false)
      else
        if h.unreadMentions ≠ ∅ ∧ type ≠ .New then
          ({ h with unreadMentions := insert msgId h.unreadMentions }, true)
        else (h, false)
    | none =>
      if h.unreadMentions ≠ ∅ ∧ type ≠ .New then
        ({ h with unreadMentions := insert msgId h.unreadMentions }, true)
      else (h, false)

/-- The `allLoaded` condition computed at the head of
`History::addToUnreadMentions`. -/
def History.allLoadedMentions (h : History) : Bool :=
  match h.unreadMentionsCount with
  | some c => decide ((h.unreadMentions.card : Int) ≥ c)
  | none => false

/-- `History::setInboxReadTill`: `accumulate_max(*_inboxReadBefore, upTo + 1)`. -/
def History.setInboxReadTill (h : History) (upTo : MsgId) : History :=
  match h.inboxReadBefore with
  | some t => { h with inboxReadBefore := some (max t (upTo + 1)) }
  | none => { h with inboxReadBefore := some (upTo + 1) }

/-- `History::setOutboxReadTill`: `accumulate_max(*_outboxReadBefore, upTo + 1)`. -/
def History.setOutboxReadTill (h : History) (upTo : MsgId) : History :=
  match h.outboxReadBefore with
  | some t => { h with outboxReadBefore := some (max t (upTo + 1)) }
  | none => { h with outboxReadBefore := some (upTo + 1) }

/-- `History::unreadCount() const`: `value_or(0)`. -/
def History.unreadCountValue (h : History) : Int :=
  match h.unreadCount with
  | some c => c
  | none => 0

/-- `lastMessage() const`: `_lastMessage.value_or(nullptr)`. -/
def History.lastMessageGet (h : History) : Option Item :=
  match h.lastMessage with
  | some x => x
  | none => none

/-- The reverse block-then-message iteration used by several scans: blocks
from newest to oldest, messages inside each block from newest to oldest,
flattened. -/
def History.itemsNewestFirst (h : History) : List Item :=
  (h.blocks.reverse.map List.reverse).flatten

/-- First server-assigned id along a list of items. -/
def firstServerId : List Item → MsgId
  | [] => 0
  | i :: rest => if IsServerMsgId i.id then i.id else firstServerId rest

/-- `History::minMsgId`: first server id scanning oldest to newest. -/
def History.minMsgId (h : History) : MsgId :=
  firstServerId h.blocks.flatten

/-- `History::maxMsgId`: first server id scanning newest to oldest. -/
def History.maxMsgId (h : History) : MsgId :=
  firstServerId h.itemsNewestFirst

/-- `History::lastAvailableMessage`: the newest loaded item, if any. -/
def History.lastAvailableMessage (h : History) : Option Item :=
  match h.blocks.getLast? with
  | some b => b.getLast?
  | none => none

/-- `History::msgIdForRead`. -/
def History.msgIdForRead (h : History) : MsgId :=
  let result :=
    match h.lastMessageGet with
    | some last => if IsServerMsgId last.id then last.id else 0
    | none => 0
  if h.loadedAtBottom then max result h.maxMsgId else result

/-- Inner loop of `History::countUnread` over one block's messages, newest
first; the `break` of the source leaves only the current block. -/
def countUnreadIn (upTo : MsgId) : List Item → Int
  | [] => 0
  | i :: rest =>
    if 0 < i.id ∧ i.id ≤ upTo then 0
    else
      (if ¬i.out ∧ i.unread ∧ upTo < i.id then 1 else 0) + countUnreadIn upTo rest

/-- `History::countUnread`. -/
def History.countUnread (h : History) (upTo : MsgId) : Int :=
  ((h.blocks.reverse.map (fun b => countUnreadIn upTo b.reverse))).sum

/-- Loop of `History::calculateFirstUnreadMessage`, newest first, with the
accumulated `_firstUnreadView`. -/
def calcFirstUnreadLoop (threshold : MsgId) : List Item → Option Item → Option Item
  | [], acc => acc
  | i :: rest, acc =>
    if ¬IsServerMsgId i.id then calcFirstUnreadLoop threshold rest acc
    else if ¬i.out ∨ acc = none then
      if i.id ≥ threshold then calcFirstUnreadLoop threshold rest (some i)
      else acc
    else calcFirstUnreadLoop threshold rest acc

/-- `History::calculateFirstUnreadMessage`. -/
def History.calculateFirstUnreadMessage (h : History) : History :=
  if h.firstUnreadView ≠ none then h
  else
    match h.inboxReadBefore with
    | none => h
    | some t =>
      { h with
          firstUnreadView := calcFirstUnreadLoop t h.itemsNewestFirst h.firstUnreadView }

/-- `History::setUnreadCount` restricted to the Window state: first-unread
anchor and read-till resolution plus the stored count.  The owner-level
badge increments, unread-bar count repaint and peer notifications are
collaborator effects. -/
def History.setUnreadCount (h : History) (newUnreadCount : Int) : History :=
  if h.unreadCount = some newUnreadCount then h
  else
    let h1 :=
      if newUnreadCount = 1 then
        let ha :=
          if h.loadedAtBottom then { h with firstUnreadView := h.lastAvailableMessage }
          else h
        let last := ha.msgIdForRead
        if last ≠ 0 then ha.setInboxReadTill (last - 1) else ha
      else if newUnreadCount = 0 then
        let ha := { h with firstUnreadView := none }
        let last := ha.msgIdForRead
        if last ≠ 0 then ha.setInboxReadTill last else ha
      else
        if h.firstUnreadView = none ∧ h.unreadBarView = none ∧ h.loadedAtBottom then
          h.calculateFirstUnreadMessage
        else h
    { h1 with unreadCount := some newUnreadCount }

/-- `History::changeUnreadCount` (the feed propagation for channels is a
collaborator effect). -/
def History.changeUnreadCount (h : History) (delta : Int) : History :=
  match h.unreadCount with
  | some c => h.setUnreadCount (max (c + delta) 0)
  | none => h

/-- The backward scan of `computeChatListMessageFromLast` in the chat
branch: the newest loaded item that is not the given one. -/
def History.findBeforeLast (h : History) (last : Item) : Option Item :=
  h.itemsNewestFirst.find? (fun i => decide (i ≠ last))

/-- `History::computeChatListMessageFromLast`. -/
def History.computeChatListMessageFromLast (h : History) :
    Option (Option Item) :=
  match h.lastMessage with
  | none => none
  | some lastValue =>
    match lastValue with
    | none => some none
    | some last =>
      if ¬last.isGroupMigrate then some (some last)
      else if h.peer.isChat then
        if ¬h.loadedAtBottom then none
        else
          match h.findBeforeLast last with
          | some before => some (some before)
          | none =>
            if h.loadedAtTop then some (some last)
            else none
      else if h.peer.migrateFromSet then
        match h.migrateFromChatListMessage with
        | some fromChatList => some fromChatList
        | none => none
      else some (some last)

/-- `History::setChatListMessage` restricted to the Window state; saved-peer
storage removal, chat-list entry repaint and the migrate-to sibling request
are collaborator effects. -/
def History.setChatListMessage (h : History) (item : Option Item) : History :=
  if h.chatListMessage = some item then h
  else
    match item with
    | some it =>
      let blockedByLocal : Bool :=
        match h.chatListMessage with
        | some (some cur) => decide (¬IsServerMsgId cur.id ∧ cur.date > it.date)
        | _ => false
      if blockedByLocal then h
      else { h with chatListMessage := some (some it), chatListTimeId := it.date }
    | none => { h with chatListMessage := some none }

/-- `History::setChatListMessageFromLast`. -/
def History.setChatListMessageFromLast (h : History) : History :=
  match h.computeChatListMessageFromLast with
  | some good => h.setChatListMessage good
  | none => { h with chatListMessage := none }

/-- `History::requestChatListMessage` restricted to the Window state: the
dialog-entry round trips issued when the last message is unknown and the
fake-chat-list-message request (`setFakeChatListMessage`) are remote
collaborator effects. -/
def History.requestChatListMessage (h : History) : History :=
  if h.lastMessage = none then h
  else if h.chatListMessage ≠ none then h
  else h.setChatListMessageFromLast

/-- `History::setLastMessage`. -/
def History.setLastMessage (h : History) (item : Option Item) : History :=
  let keep : Bool :=
    match h.lastMessage with
    | some cur =>
      decide (cur = item) ||
        (match cur, item with
         | some c, some i => decide (¬IsServerMsgId c.id ∧ c.date > i.date)
         | _, _ => false)
    | none => false
  if keep then h
  else
    let h := { h with lastMessage := some item, chatListMessage := none }
    if h.peer.migrateToSet then h else h.requestChatListMessage

/-- `Data::draftIsNull` — modelled from the spec: a draft pointer is null,
or its text is empty and it has no reply target (`data_drafts.h` is outside
this file). -/
def draftIsNull (draft : Option Draft) : Bool :=
  match draft with
  | none => true
  | some d => decide (d.textWithTags = "" ∧ d.msgId = 0)

/-- `History::createLocalDraftFromCloud`. -/
def History.createLocalDraftFromCloud (h : History) : History :=
  match h.cloudDraft with
  | none => { h with localDraft := none }
  | some draft =>
    if draftIsNull (some draft) ∨ draft.date = 0 then h
    else
      let overwrite :=
        match h.localDraft with
        | none => true
        | some existing =>
          draftIsNull (some existing) ∨ existing.date = 0 ∨
            draft.date ≥ existing.date
      if overwrite then
        { h with
            localDraft := some
              { textWithTags := draft.textWithTags
                msgId := draft.msgId
                cursor := draft.cursor
                previewCancelled := draft.previewCancelled
                date := draft.date } }
      else h

/-- `History::isServerSideUnread`; the `Expects(IsServerMsgId(item->id))`
precondition is modelled as the `none` result. -/
def History.isServerSideUnread (h : History) (item : Item) : Option Bool :=
  if ¬IsServerMsgId item.id then none
  else if item.out then
    some (match h.outboxReadBefore with
          | none => true
          | some t => decide (item.id ≥ t))
  else
    some (match h.inboxReadBefore with
          | none => true
          | some t => decide (item.id ≥ t))

/-- `History::clearSendAction` with an explicit clock: the matching typing
and send-action entries get their expiry set to `now`, and the combined
sweep of `updateSendActionNeedsAnimating` then drops every entry whose
expiry is not in the future (the composite status string and animation it
rebuilds are UI state outside the Window model). -/
def History.clearSendAction (h : History) (fromId : Int) (now : Int) : History :=
  let found :=
    h.typing.any (fun e => e.1 == fromId) ||
      h.sendActions.any (fun e => e.1 == fromId)
  if found then
    { h with
        typing :=
          ((h.typing.map fun e => if e.1 = fromId then (e.1, now) else e).filter
            fun e => decide (now < e.2))
        sendActions :=
          ((h.sendActions.map fun e => if e.1 = fromId then (e.1, now) else e).filter
            fun e => decide (now < e.2)) }
  else h

/-- `History::destroyUnreadBar`. -/
def History.destroyUnreadBar (h : History) : History :=
  { h with unreadBarView := none }

/-- `History::inboxRead(MsgId)` restricted to the Window state: scroll-down
signal, chat-list repaints and clearing the notification manager are
collaborator effects. -/
def History.inboxRead (h : History) (upTo : MsgId) : History :=
  let h :=
    if h.unreadCountValue ≠ 0 then
      h.changeUnreadCount (h.countUnread upTo - h.unreadCountValue)
    else h
  let h := h.setInboxReadTill upTo
  { h with firstUnreadView := none }

/-- `History::inboxRead(item)`. -/
def History.inboxReadItem (h : History) (item : Item) : History :=
  if IsServerMsgId item.id then h.inboxRead item.id else h

/-- `History::outboxRead(MsgId)` restricted to the Window state: the
dialog-row repaint and chat-list entry update are collaborator effects. -/
def History.outboxRead (h : History) (upTo : MsgId) : History :=
  h.setOutboxReadTill upTo

/-- `History::outboxRead(item)`. -/
def History.outboxReadItem (h : History) (item : Item) : History :=
  if IsServerMsgId item.id then h.outboxRead item.id else h

/-- `History::newItemAdded` with an explicit clock.  The shared-media
indexing of `indexAsNewItem`, the sender's `madeAction` bookkeeping and the
`newUnreadMsg` notification dispatch are collaborator effects; the
notification queue (`notifies`) itself is Window state. -/
def History.newItemAdded (h : History) (item : Item) (now : Int) : History :=
  let h :=
    if item.fromId ≠ 0 ∧ item.fromIsUser ∧ item.fromId = item.authorId then
      h.clearSendAction item.fromId now
    else h
  if item.out then
    let h := h.destroyUnreadBar
    if ¬item.unread then h.outboxReadItem item else h
  else if item.unread then
    if ¬h.peer.isChannel ∨ h.peer.amIn then
      { h with notifies := h.notifies ++ [item] }
    else h
  else h.inboxReadItem item

/-- Insert into a `flat_set`-backed list only when absent. -/
def insertUnique (x : Int) (l : List Int) : List Int :=
  if x ∈ l then l else l ++ [x]

/-- Append an item to the first block of the sequence. -/
def appendToHead (blocks : List (List Item)) (item : Item) : List (List Item) :=
  match blocks with
  | [] => [[item]]
  | b :: rest => (b ++ [item]) :: rest

/-- Append an item to the last block of the sequence. -/
def appendToLast (blocks : List (List Item)) (item : Item) : List (List Item) :=
  match blocks with
  | [] => [[item]]
  | [b] => [b ++ [item]]
  | b :: rest => b :: appendToLast rest item

/-- `History::prepareBlockForAddingItem` fused with the push of
`History::addItemToBlock`: the chosen block (front building block, or last
block with allocation at `kNewBlockEachMessage`) receives the item, and a
pending front-block build decrements its expected count.  View creation,
attachment and index caching are implicit in the list representation. -/
def History.addItemToBlockUnchecked (h : History) (item : Item) : History :=
  match h.buildingFrontBlock with
  | some bb =>
    let blocks :=
      if bb.hasBlock then appendToHead h.blocks item else [item] :: h.blocks
    let expected :=
      if bb.expectedItemsCount > 0 then bb.expectedItemsCount - 1
      else bb.expectedItemsCount
    { h with
        blocks := blocks
        buildingFrontBlock :=
          some { hasBlock := true, expectedItemsCount := expected } }
  | none =>
    match h.blocks.getLast? with
    | none => { h with blocks := h.blocks ++ [[item]] }
    | some lastBlock =>
      if lastBlock.length ≥ kNewBlockEachMessage then
        { h with blocks := h.blocks ++ [[item]] }
      else { h with blocks := appendToLast h.blocks item }

/-- `History::addItemToBlock` with its `Expects(!item->mainView())`. -/
def History.addItemToBlock (h : History) (item : Item) : Option History :=
  if h.hasMainView item then none
  else some (h.addItemToBlockUnchecked item)

/-- `History::startBuildingFrontBlock` with its two assertions. -/
def History.startBuildingFrontBlock (h : History)
    (expectedItemsCount : Int) : Option History :=
  if h.isBuildingFrontBlock then none
  else if ¬(expectedItemsCount > 0) then none
  else
    some
      { h with
          buildingFrontBlock :=
            some { hasBlock := false, expectedItemsCount := expectedItemsCount } }

/-- `History::finishBuildingFrontBlock` with its
`Expects(isBuildingFrontBlock())`; the neighbour-change notifications at
the splice boundary are view-level effects. -/
def History.finishBuildingFrontBlock (h : History) : Option History :=
  if ¬h.isBuildingFrontBlock then none
  else some { h with buildingFrontBlock := none }

/-- The megagroup bot bookkeeping at the head of the sender-driven part of
`History::addNewItem` (`mgInfo->bots.insert`, `botStatus` bump). -/
def History.insertMegagroupBot (h : History) (item : Item) : History :=
  if h.peer.isMegagroup ∧ item.fromIsBot then
    { h with
        peer :=
          { h.peer with
              bots := insertUnique item.fromId h.peer.bots
              botStatus :=
                if h.peer.botStatus ≠ 0 ∧ h.peer.botStatus < 2 then 2
                else h.peer.botStatus } }
  else h

/-- The `markupSenders` registration inside the keyboard rule of
`History::addNewItem`. -/
def History.insertMarkupSender (h : History) (item : Item) : History :=
  if h.peer.isChat ∨ h.peer.isMegagroup then
    { h with
        peer :=
          { h.peer with
              markupSenders := insertUnique item.fromId h.peer.markupSenders } }
  else h

/-- The `botNotInChat` test of the keyboard rule of `History::addNewItem`. -/
def History.botNotInChat (h : History) (item : Item) : Prop :=
  if h.peer.isChat then
    item.fromIsUser ∧ (h.peer.participants ≠ [] ∨ ¬h.peer.canWrite) ∧
      item.fromId ∉ h.peer.participants
  else if h.peer.isMegagroup then
    item.fromIsUser ∧ (h.peer.botStatus ≠ 0 ∨ ¬h.peer.canWrite) ∧
      item.fromId ∉ h.peer.bots
  else False

instance (h : History) (item : Item) : Decidable (h.botNotInChat item) := by
  unfold History.botNotInChat
  infer_instance

/-- The reply-keyboard tracking of the sender-driven part of
`History::addNewItem` (lines after the `definesReplyKeyboard` check). -/
def History.applyNewKeyboardRule (h : History) (item : Item) : History :=
  if item.definesReplyKeyboard then
    if ¬item.keyboardSelective ∨ item.mentionsMe then
      let h := h.insertMarkupSender item
      if item.keyboardHideSentinel then
        if h.lastKeyboardFrom = item.fromId ∨
            (¬h.lastKeyboardInited ∧ ¬h.peer.isChat ∧ ¬h.peer.isMegagroup ∧
              ¬item.out) then
          h.clearLastKeyboard
        else h
      else
        if h.botNotInChat item then h.clearLastKeyboard
        else
          { h with
              lastKeyboardInited := true
              lastKeyboardId := item.id
              lastKeyboardFrom := item.fromId
              lastKeyboardUsed := false }
    else h
  else h

/-- The sender-driven part of `History::addNewItem` (run when
`item->from()` is a user): megagroup bot bookkeeping and the reply-keyboard
tracking.  The `lastAuthors` reordering only mutates peer-side author lists
never read back by the Window and is omitted; `markupSenders` and the bot
lists are carried in `Peer` because the keyboard logic reads them. -/
def History.newItemAuthorUpdates (h : History) (item : Item) : History :=
  (h.insertMegagroupBot item).applyNewKeyboardRule item

/-- `History::addNewItem` with its `Expects(!isBuildingFrontBlock())`; the
shared-media registration for read server items is a storage collaborator
effect. -/
def History.addNewItem (h : History) (item : Item) (unread : Bool)
    (now : Int) : Option History :=
  if h.isBuildingFrontBlock then none
  else
    match h.addItemToBlock item with
    | none => none
    | some h =>
      let h :=
        if item.fromId ≠ 0 ∧ item.fromIsUser then h.newItemAuthorUpdates item
        else h
      let h := h.setLastMessage (some item)
      let h := if unread then h.newItemAdded item now else h
      some h

/-- Modelled from the spec: `GenerateJoinedMessage` (outside this file)
synthesizes a "user joined" service Item dated at the invite time,
authored by the inviter, carrying a fresh client-side id drawn from the
local id space at `ServerMaxMsgId`. -/
def GenerateJoinedMessage (inviteDate : TimeId) (inviter : Int) : Item where
  id := ServerMaxMsgId
  date := inviteDate
  out := false
  unread := false
  isGroupMigrate := false
  isGroupEssential := false
  isUnreadMention := false
  fromId := inviter
  authorId := inviter
  fromIsUser := true
  fromIsBot := false
  authorIsUser := true
  mainView := false
  definesReplyKeyboard := false
  keyboardSelective := false
  keyboardHideSentinel := false
  mentionsMe := false
  groupId := 0
  serviceDeleteUserId := 0

/-- Result of the backward scan of `insertJoinedMessage` over the loaded
blocks. -/
inductive JoinScanResult where
  | stop
  | insert (blockIndex itemIndex : Nat)
  | missing

/-- Per-block part of the `insertJoinedMessage` scan: items are visited
newest first, paired with their index in the block. -/
def joinScanItems (megaMigrate : Bool) (inviteDate : TimeId) :
    List (Nat × Item) → Option (Option Nat)
  | [] => some none
  | (idx, item) :: rest =>
    if item.id = 1 ∧ megaMigrate then none
    else if item.date ≤ inviteDate then some (some (idx + 1))
    else joinScanItems megaMigrate inviteDate rest

/-- Block-level part of the `insertJoinedMessage` scan: blocks are visited
newest first, paired with their index in the window. -/
def joinScan (megaMigrate : Bool) (inviteDate : TimeId) :
    List (Nat × List Item) → JoinScanResult
  | [] => .missing
  | (bIdx, b) :: rest =>
    match joinScanItems megaMigrate inviteDate b.enum.reverse with
    | none => .stop
    | some (some j) => .insert bIdx j
    | some none => joinScan megaMigrate inviteDate rest

/-- `History::addNewInTheMiddle`: splice the item into the given block at
the given position (view renumbering and the neighbour-change notification
are view-level effects; the bounds `Expects` hold for the positions the
scan produces). -/
def History.addNewInTheMiddle (h : History) (item : Item)
    (blockIndex itemIndex : Nat) : History :=
  let block := h.blocks.getD blockIndex []
  { h with
      blocks :=
        h.blocks.set blockIndex
          (block.take itemIndex ++ [item] ++ block.drop itemIndex) }

/-- `History::insertJoinedMessage`; the returned flag tells whether the
function returned a non-null joined message. -/
def History.insertJoinedMessage (h : History) (unread : Bool) (now : Int) :
    Option (History × Bool) :=
  if ¬h.peer.isChannel ∨ h.joinedMessage ≠ none ∨ ¬h.peer.amIn ∨
      (h.peer.isMegagroup ∧ h.peer.joinedMessageFound) then
    some (h, h.joinedMessage ≠ none)
  else if ¬(h.peer.inviter > 0 ∧ h.peer.inviterLoaded) then some (h, false)
  else
    let unread := if h.peer.inviterIsSelf then false else unread
    let jm := GenerateJoinedMessage h.peer.inviteDate h.peer.inviter
    if h.blocks = [] then
      let h := { h with joinedMessage := some jm }
      match h.addNewItem jm unread now with
      | none => none
      | some h => some (h, true)
    else
      match
        joinScan (h.peer.isMegagroup ∧ h.peer.migrateFromSet)
          h.peer.inviteDate h.blocks.enum.reverse with
      | .stop =>
        some ({ h with peer := { h.peer with joinedMessageFound := true } }, false)
      | .insert bIdx iIdx =>
        let h := { h with joinedMessage := some jm }
        let h := h.addNewInTheMiddle jm bIdx iIdx
        let lastDate := h.chatListTimeId
        if lastDate = 0 ∨ h.peer.inviteDate ≥ lastDate then
          let h := h.setLastMessage (some jm)
          let h := if unread then h.newItemAdded jm now else h
          some (h, true)
        else some (h, true)
      | .missing =>
        match h.startBuildingFrontBlock 1 with
        | none => none
        | some h =>
          let h := { h with joinedMessage := some jm }
          match h.addItemToBlock jm with
          | none => none
          | some h =>
            match h.finishBuildingFrontBlock with
            | none => none
            | some h => some (h, true)

/-- `History::checkJoinedMessage`. -/
def History.checkJoinedMessage (h : History) (createUnread : Bool)
    (now : Int) : Option History :=
  if ¬h.peer.isChannel ∨ h.joinedMessage ≠ none ∨ h.peer.inviter ≤ 0 then
    some h
  else if h.blocks = [] ∧ h.loadedAtTop ∧ h.loadedAtBottom then
    match h.insertJoinedMessage createUnread now with
    | none => none
    | some (h, inserted) =>
      if inserted &&
          (match h.joinedMessage with
           | some jm => decide (h.hasMainView jm)
           | none => false) then
        some (h.setLastMessage h.joinedMessage)
      else some h
  else
    let firstDate := ((h.blocks.headD []).headD (GenerateJoinedMessage 0 0)).date
    let firstDate := if h.blocks = [] then 0 else firstDate
    let lastDate := ((h.blocks.getLastD []).getLastD (GenerateJoinedMessage 0 0)).date
    let lastDate := if h.blocks = [] then 0 else lastDate
    if firstDate ≠ 0 ∧ lastDate ≠ 0 ∧
        (firstDate ≤ h.peer.inviteDate ∨ h.loadedAtTop) ∧
        (lastDate > h.peer.inviteDate ∨ h.loadedAtBottom) then
      let willBeLastMsg := h.peer.inviteDate ≥ lastDate
      match h.insertJoinedMessage (createUnread ∧ willBeLastMsg) now with
      | none => none
      | some (h, inserted) =>
        if inserted && willBeLastMsg &&
            (match h.joinedMessage with
             | some jm => decide (h.hasMainView jm)
             | none => false) then
          some (h.setLastMessage h.joinedMessage)
        else some h
    else some h

/-- `History::checkForLoadedAtTop` (the shared-media edge registration is a
storage collaborator effect). -/
def History.checkForLoadedAtTop (h : History) (added : Item)
    (now : Int) : Option History :=
  if h.peer.isChat then
    if added.isGroupEssential ∧ ¬added.isGroupMigrate then
      some { h with loadedAtTop := true }
    else some h
  else if h.peer.isChannel then
    if added.id = 1 then
      let h := { h with loadedAtTop := true }
      h.checkJoinedMessage false now
    else some h
  else some h

/-- `History::forgetScrollState`. -/
def History.forgetScrollState (h : History) : History :=
  { h with scrollTopItem := none }

/-- `History::clearBlocks` restricted to the Window state (history-change /
unload notifications, feed propagation and pinned-message clearing are
collaborator effects; the peer-side `lastAuthors` / `markupSenders` resets
are applied to the carried peer slice). -/
def History.clearBlocks (h : History) (leaveItems : Bool) : History :=
  let h := { h with unreadBarView := none, firstUnreadView := none, joinedMessage := none }
  let h := if h.scrollTopItem ≠ none then h.forgetScrollState else h
  let h :=
    if leaveItems then h
    else
      let h :=
        if h.peer.isChannel then { h with lastMessage := none }
        else h.setLastMessage none
      { h with notifies := [] }
  let h := { h with blocks := [] }
  let h :=
    if leaveItems then { h with lastKeyboardInited := false }
    else (h.changeUnreadCount (-h.unreadCountValue)).clearLastKeyboard
  let h := { h with loadedAtTop := false, loadedAtBottom := ¬leaveItems }
  let h := h.forgetScrollState
  if h.peer.isChat || h.peer.isMegagroup then
    { h with peer := { h.peer with markupSenders := [] } }
  else h

/-- `History::unloadBlocks`. -/
def History.unloadBlocks (h : History) : History :=
  h.clearBlocks true

/-- `History::hasOrphanMediaGroupPart`. -/
def History.hasOrphanMediaGroupPart (h : History) : Bool :=
  if h.loadedAtTop then false
  else if ¬h.loadedAtBottom then false
  else
    match h.blocks with
    | [[only]] => decide (only.groupId ≠ 0)
    | _ => false

/-- `History::removeOrphanMediaGroupPart`. -/
def History.removeOrphanMediaGroupPart (h : History) : History :=
  if h.hasOrphanMediaGroupPart then h.unloadBlocks else h

/-- `History::applyMessageChanges` / `applyServiceChanges` restricted to
the Window state: of the service actions, only `chatDeleteUser` touches the
Window (clearing the tracked keyboard when its sender leaves); member-list,
photo/title, pin and migration bookkeeping live on the peer and session. -/
def History.applyMessageChanges (h : History) (item : Item) : History :=
  if item.serviceDeleteUserId ≠ 0 ∧
      h.lastKeyboardFrom = item.serviceDeleteUserId then
    h.clearLastKeyboard
  else h

/-- `History::addToHistory`: `createItem` without detaching — it only
creates or refreshes the item in the process-wide registry, so the Window
state is unchanged; a zero message id yields no item. -/
def History.addToHistory (h : History) (msg : Item) : History × Option Item :=
  (h, if msg.id = 0 then none else some msg)

/-- `History::addNewToLastBlock`. -/
def History.addNewToLastBlock (h : History) (msg : Item)
    (type : NewMessageType) (now : Int) : Option (History × Option Item) :=
  if type = .Existing then none
  else if msg.id = 0 then some (h, none)
  else if h.hasMainView msg then some (h, some msg)
  else
    let newUnreadMessage := type = .Unread
    let h := if newUnreadMessage then h.applyMessageChanges msg else h
    match h.addNewItem msg newUnreadMessage now with
    | none => none
    | some h =>
      match h.checkForLoadedAtTop msg now with
      | none => none
      | some h =>
        let h := if type = .Last then h.removeOrphanMediaGroupPart else h
        some (h, some msg)

/-- `History::addNewMessage`. -/
def History.addNewMessage (h : History) (msg : Item)
    (type : NewMessageType) (now : Int) : Option (History × Option Item) :=
  if type = .Existing then some (h.addToHistory msg)
  else if ¬h.loadedAtBottom ∨ h.peer.migrateToSet then
    match (h.addToHistory msg).2 with
    | none => some (h, none)
    | some item =>
      let h := h.setLastMessage (some item)
      let h := if type = .Unread then h.newItemAdded item now else h
      some (h, some item)
  else h.addNewToLastBlock msg type now

/-- `History::createItems`: the raw vector is traversed from the end (the
page arrives newest first) and zero-id messages are dropped. -/
def createItems (slice : List Item) : List Item :=
  slice.reverse.filterMap fun m => if m.id = 0 then none else some m

/-- `HistoryItem::addToUnreadMentions` — modelled from the spec
(`history_item.cpp` is outside this file): only an unread-mention item
registers itself with its Window. -/
def History.itemAddToUnreadMentions (h : History) (item : Item)
    (type : UnreadMentionType) : History :=
  if item.isUnreadMention then (h.addToUnreadMentions item.id type).1 else h

/-- `History::checkAddAllToUnreadMentions`. -/
def History.checkAddAllToUnreadMentions (h : History) : History :=
  if ¬h.loadedAtBottom then h
  else
    h.blocks.flatten.foldl
      (fun h i => h.itemAddToUnreadMentions i .Existing) h

/-- `History::addItemsToLists` restricted to the Window state: items are
visited newest first, register as existing unread mentions, and run the
initial reply-keyboard resolution (`lastAuthors` reordering is peer-side
bookkeeping never read back by the Window). -/
def History.addItemsToLists (h : History) (items : List Item) : History :=
  items.reverse.foldl
    (fun h item =>
      let h := h.itemAddToUnreadMentions item .Existing
      if item.authorId ≠ 0 then
        if h.peer.isChat ∨ h.peer.isMegagroup then
          if ¬h.lastKeyboardInited ∧ item.definesReplyKeyboard ∧ ¬item.out then
            if ¬item.keyboardSelective ∨ item.mentionsMe then
              let wasKeyboardHide := item.authorId ∈ h.peer.markupSenders
              let h :=
                if ¬wasKeyboardHide then
                  { h with
                      peer :=
                        { h.peer with
                            markupSenders :=
                              insertUnique item.authorId h.peer.markupSenders } }
                else h
              if ¬item.keyboardHideSentinel then
                if ¬h.lastKeyboardInited then
                  let botNotInChat :=
                    if h.peer.isChat then
                      (¬h.peer.canWrite ∨ h.peer.participants ≠ []) ∧
                        item.authorIsUser ∧
                        item.authorId ∉ h.peer.participants
                    else if h.peer.isMegagroup then
                      (¬h.peer.canWrite ∨ h.peer.botStatus ≠ 0) ∧
                        item.authorIsUser ∧ item.authorId ∉ h.peer.bots
                    else False
                  if wasKeyboardHide ∨ botNotInChat then h.clearLastKeyboard
                  else
                    { h with
                        lastKeyboardInited := true
                        lastKeyboardId := item.id
                        lastKeyboardFrom := item.authorId
                        lastKeyboardUsed := false }
                else h
              else h
            else h
          else h
        else if ¬h.lastKeyboardInited ∧ item.definesReplyKeyboard ∧ ¬item.out then
          if ¬item.keyboardSelective ∨ item.mentionsMe then
            if item.keyboardHideSentinel then h.clearLastKeyboard
            else
              { h with
                  lastKeyboardInited := true
                  lastKeyboardId := item.id
                  lastKeyboardFrom := item.authorId
                  lastKeyboardUsed := false }
          else h
        else h
      else h)
    h

/-- `History::checkLastMessage`. -/
def History.checkLastMessage (h : History) : History :=
  match h.lastMessageGet with
  | some last =>
    if ¬h.loadedAtBottom ∧ h.hasMainView last then
      let h := { h with loadedAtBottom := true }
      h.checkAddAllToUnreadMentions
    else h
  | none =>
    if h.loadedAtBottom then h.setLastMessage h.lastAvailableMessage else h

/-- `History::addOlderSlice` (shared-media slice registration is a storage
collaborator effect). -/
def History.addOlderSlice (h : History) (slice : List Item)
    (now : Int) : Option History :=
  if slice = [] then
    let h := { h with loadedAtTop := true }
    h.checkJoinedMessage false now
  else
    let added := createItems slice
    let step : Option History :=
      if added ≠ [] then
        match h.startBuildingFrontBlock (added.length : Int) with
        | none => none
        | some h =>
          match added.foldlM (fun h i => h.addItemToBlock i) h with
          | none => none
          | some h =>
            match h.finishBuildingFrontBlock with
            | none => none
            | some h =>
              some (if h.loadedAtBottom then h.addItemsToLists added else h)
      else some { h with loadedAtTop := true }
    match step with
    | none => none
    | some h =>
      match h.checkJoinedMessage false now with
      | none => none
      | some h => some h.checkLastMessage

/-- The `History` constructor: field defaults are modelled from the spec
(`history.h` is outside this file: optional state starts unknown, flags
false, containers empty); the constructor body sets the outbox cursor to
the maximal message id when the peer is a bot user. -/
def History.init (peer : Peer) : History where
  peer := peer
  blocks := []
  loadedAtTop := false
  loadedAtBottom := false
  lastMessage := none
  chatListMessage := none
  chatListTimeId := 0
  inboxReadBefore := none
  outboxReadBefore := if peer.isBotUser then some MsgIdMax else none
  unreadCount := none
  unreadMark := false
  unreadMentions := ∅
  unreadMentionsCount := none
  buildingFrontBlock := none
  notifies := []
  localDraft := none
  cloudDraft := none
  joinedMessage := none
  firstUnreadView := none
  unreadBarView := none
  scrollTopItem := none
  lastKeyboardInited := false
  lastKeyboardUsed := false
  lastKeyboardId := 0
  lastKeyboardHiddenId := 0
  lastKeyboardFrom := 0
  typing := []
  sendActions := []
  migrateFromChatListMessage := none

/-! ### Helper lemmas -/

theorem setInboxReadTill_eq_of_le (h : History) (upTo t : MsgId)
    (ht : h.inboxReadBefore = some t) (hle : upTo + 1 ≤ t) :
    h.setInboxReadTill upTo = h := by
  simp only [History.setInboxReadTill, ht, max_eq_left hle]
  rw [← ht]

theorem setOutboxReadTill_eq_of_le (h : History) (upTo t : MsgId)
    (ht : h.outboxReadBefore = some t) (hle : upTo + 1 ≤ t) :
    h.setOutboxReadTill upTo = h := by
  simp only [History.setOutboxReadTill, ht, max_eq_left hle]
  rw [← ht]

/-- Ordering on optional thresholds: an unknown threshold is below
everything, a known one never becomes unknown nor smaller. -/
def optionLe : Option MsgId → Option MsgId → Prop
  | none, _ => True
  | some _, none => False
  | some a, some b => a ≤ b

theorem optionLe_refl (a : Option MsgId) : optionLe a a := by
  cases a <;> simp [optionLe]

theorem optionLe_trans {a b c : Option MsgId}
    (hab : optionLe a b) (hbc : optionLe b c) : optionLe a c := by
  cases a with
  | none => exact trivial
  | some x =>
    cases b with
    | none => exact hab.elim
    | some y =>
      cases c with
      | none => exact hbc.elim
      | some z => exact le_trans hab hbc

/-- A sequence of read-till calls; `true` addresses the inbox cursor. -/
def History.applyReadTills (h : History) (calls : List (Bool × MsgId)) :
    History :=
  calls.foldl
    (fun h c => if c.1 then h.setInboxReadTill c.2 else h.setOutboxReadTill c.2)
    h

theorem setInboxReadTill_inbox_le (h : History) (u : MsgId) :
    optionLe h.inboxReadBefore (h.setInboxReadTill u).inboxReadBefore := by
  unfold History.setInboxReadTill
  cases ht : h.inboxReadBefore <;> simp [optionLe, ht]

theorem setOutboxReadTill_outbox_le (h : History) (u : MsgId) :
    optionLe h.outboxReadBefore (h.setOutboxReadTill u).outboxReadBefore := by
  unfold History.setOutboxReadTill
  cases ht : h.outboxReadBefore <;> simp [optionLe, ht]

theorem setInboxReadTill_outbox (h : History) (u : MsgId) :
    (h.setInboxReadTill u).outboxReadBefore = h.outboxReadBefore := by
  unfold History.setInboxReadTill
  cases h.inboxReadBefore <;> rfl

theorem setOutboxReadTill_inbox (h : History) (u : MsgId) :
    (h.setOutboxReadTill u).inboxReadBefore = h.inboxReadBefore := by
  unfold History.setOutboxReadTill
  cases h.outboxReadBefore <;> rfl

theorem applyReadTills_cons (h : History) (c : Bool × MsgId)
    (rest : List (Bool × MsgId)) :
    h.applyReadTills (c :: rest) =
      (if c.1 then h.setInboxReadTill c.2 else h.setOutboxReadTill c.2).applyReadTills
        rest := rfl

theorem applyReadTills_le (h : History) (calls : List (Bool × MsgId)) :
    optionLe h.inboxReadBefore (h.applyReadTills calls).inboxReadBefore ∧
      optionLe h.outboxReadBefore (h.applyReadTills calls).outboxReadBefore := by
  induction calls generalizing h with
  | nil => exact ⟨optionLe_refl _, optionLe_refl _⟩
  | cons c rest ih =>
    rcases c with ⟨dir, u⟩
    rw [applyReadTills_cons]
    cases dir with
    | true =>
      simp only [if_pos rfl]
      have step := ih (h.setInboxReadTill u)
      refine ⟨optionLe_trans (setInboxReadTill_inbox_le h u) step.1, ?_⟩
      have := step.2
      rw [setInboxReadTill_outbox h u] at this
      exact this
    | false =>
      rw [if_neg Bool.false_ne_true]
      have step := ih (h.setOutboxReadTill u)
      refine ⟨?_, optionLe_trans (setOutboxReadTill_outbox_le h u) step.2⟩
      have := step.1
      rw [setOutboxReadTill_inbox h u] at this
      exact this

/-! ### Concrete baseline states for witnesses and counterexamples -/

/-- A plain legacy-group peer used as baseline in concrete scenarios. -/
def basePeer : Peer where
  kind := .chat
  migrateToSet := false
  migrateFromSet := false
  amIn := true
  inviter := 0
  inviterLoaded := false
  inviterIsSelf := false
  inviteDate := 0
  joinedMessageFound := false
  canWrite := true
  participants := []
  bots := []
  botStatus := 0
  markupSenders := []

/-- A plain inbound message item used as baseline in concrete scenarios. -/
def baseItem : Item where
  id := 0
  date := 0
  out := false
  unread := false
  isGroupMigrate := false
  isGroupEssential := false
  isUnreadMention := false
  fromId := 0
  authorId := 0
  fromIsUser := false
  fromIsBot := false
  authorIsUser := false
  mainView := false
  definesReplyKeyboard := false
  keyboardSelective := false
  keyboardHideSentinel := false
  mentionsMe := false
  groupId := 0
  serviceDeleteUserId := 0

/-- A freshly constructed legacy-group window. -/
def H0 : History := History.init basePeer

/-! ### C4: read-till cursors store `upTo + 1`, monotonically -/

/-- C4.  For each read-cursor direction, `setInboxReadTill` /
`setOutboxReadTill` store `upTo + 1`: with a known threshold `t`, a call
with `upTo + 1 ≤ t` leaves the state unchanged and a larger value raises
the threshold to `upTo + 1`; with an unknown threshold the call stores
`upTo + 1`; and under any sequence of calls the stored thresholds never
decrease. -/
theorem claim_C4_theorem (h : History) (upTo : MsgId) :
    (∀ t, h.inboxReadBefore = some t →
      (upTo + 1 ≤ t → h.setInboxReadTill upTo = h) ∧
        (t < upTo + 1 →
          (h.setInboxReadTill upTo).inboxReadBefore = some (upTo + 1)))
    ∧ (h.inboxReadBefore = none →
        (h.setInboxReadTill upTo).inboxReadBefore = some (upTo + 1))
    ∧ (∀ t, h.outboxReadBefore = some t →
      (upTo + 1 ≤ t → h.setOutboxReadTill upTo = h) ∧
        (t < upTo + 1 →
          (h.setOutboxReadTill upTo).outboxReadBefore = some (upTo + 1)))
    ∧ (h.outboxReadBefore = none →
        (h.setOutboxReadTill upTo).outboxReadBefore = some (upTo + 1))
    ∧ (∀ calls : List (Bool × MsgId),
        optionLe h.inboxReadBefore (h.applyReadTills calls).inboxReadBefore ∧
          optionLe h.outboxReadBefore
            (h.applyReadTills calls).outboxReadBefore) := by
  refine ⟨?_, ?_, ?_, ?_, applyReadTills_le h⟩
  · intro t ht
    refine ⟨setInboxReadTill_eq_of_le h upTo t ht, fun hlt => ?_⟩
    simp [History.setInboxReadTill, ht, max_eq_right (le_of_lt hlt)]
  · intro ht
    simp [History.setInboxReadTill, ht]
  · intro t ht
    refine ⟨setOutboxReadTill_eq_of_le h upTo t ht, fun hlt => ?_⟩
    simp [History.setOutboxReadTill, ht, max_eq_right (le_of_lt hlt)]
  · intro ht
    simp [History.setOutboxReadTill, ht]

/-- Witness for C4 at a window with inbox threshold `6`: raising with
`upTo = 10` stores `11`, while `upTo = 3` changes nothing. -/
theorem claim_C4_witness :
    (({ H0 with inboxReadBefore := some 6 } :
        History).setInboxReadTill 10).inboxReadBefore = some 11 ∧
      ({ H0 with inboxReadBefore := some 6 } :
        History).setInboxReadTill 3 = { H0 with inboxReadBefore := some 6 } := by
  constructor
  · exact ((claim_C4_theorem { H0 with inboxReadBefore := some 6 } 10).1 6
      rfl).2 (by decide)
  · exact ((claim_C4_theorem { H0 with inboxReadBefore := some 6 } 3).1 6
      rfl).1 (by decide)

/-! ### C7: summary-sync mention-count reconciliation -/

/-- C7.  When the summary sync reports an unread-mentions count smaller
than the number of ids already tracked, the stored count becomes the local
set size, the discrepancy log fires, and no tracked entry is discarded. -/
theorem claim_C7_theorem (h : History) (count : Int)
    (hlt : count < (h.unreadMentions.card : Int)) :
    (h.setUnreadMentionsCount count).1.unreadMentionsCount =
        some (h.unreadMentions.card : Int) ∧
      (h.setUnreadMentionsCount count).1.unreadMentions = h.unreadMentions ∧
      (h.setUnreadMentionsCount count).2 = true := by
  unfold History.setUnreadMentionsCount
  simp [hlt]

/-- Witness for C7: two tracked ids, sync reports one. -/
theorem claim_C7_witness :
    (({ H0 with unreadMentions := {4, 9} } :
        History).setUnreadMentionsCount 1).1.unreadMentionsCount = some 2 ∧
      (({ H0 with unreadMentions := {4, 9} } :
        History).setUnreadMentionsCount 1).1.unreadMentions = {4, 9} ∧
      (({ H0 with unreadMentions := {4, 9} } :
        History).setUnreadMentionsCount 1).2 = true := by
  exact claim_C7_theorem { H0 with unreadMentions := {4, 9} } 1 (by decide)

/-! ### C1: unread-mention ingestion accepts the opposite types -/

/-- Counterexample to C1 as stated: with a known total of `2` and one
tracked id, an `Existing` (historical) mention is accepted while the set
size is below the total, and a `New` (live) one is rejected — the opposite
of the claimed acceptance rule. -/
theorem claim_C1_counterexample :
    (({ H0 with unreadMentionsCount := some 2, unreadMentions := {5} } :
        History).addToUnreadMentions 7 .Existing).2 = true ∧
      (({ H0 with unreadMentionsCount := some 2, unreadMentions := {5} } :
        History).addToUnreadMentions 9 .New).2 = false ∧
      ({ H0 with unreadMentionsCount := some 2, unreadMentions := {5} } :
        History).allLoadedMentions = false := by
  decide

/-- C1 as amended.  For a peer that tracks mentions (not a broadcast
channel): while the tracked set's size has not reached the known total (or
the total is unknown), an id is accepted exactly when its type is
`Existing` and the set is already non-empty; once the size has reached the
known total, an id is accepted exactly when its type is `New` (and the
stored total is then bumped).  An accepted id is in the resulting set; a
rejected call leaves the state unchanged. -/
theorem claim_C1_amended (h : History) (msgId : MsgId)
    (type : UnreadMentionType)
    (hpeer : ¬(h.peer.isChannel ∧ ¬h.peer.isMegagroup)) :
    ((h.addToUnreadMentions msgId type).2 = true ↔
      (if h.allLoadedMentions then type = .New
       else type ≠ .New ∧ h.unreadMentions ≠ ∅))
    ∧ ((h.addToUnreadMentions msgId type).2 = true →
        msgId ∈ (h.addToUnreadMentions msgId type).1.unreadMentions)
    ∧ ((h.addToUnreadMentions msgId type).2 = false →
        (h.addToUnreadMentions msgId type).1 = h) := by
  have hpeer' : ¬(h.peer.isChannel = true ∧ h.peer.isMegagroup = false) := by
    intro hx
    exact hpeer ⟨hx.1, by simp [hx.2]⟩
  unfold History.addToUnreadMentions History.allLoadedMentions
  rcases hc : h.unreadMentionsCount with _ | c
  · by_cases hemp : h.unreadMentions = ∅
    · cases type <;> simp [hpeer', hemp]
    · cases type <;> simp [hpeer', hemp, Finset.mem_insert_self]
  · by_cases hall : (h.unreadMentions.card : Int) ≥ c
    · cases type <;>
        simp [hpeer', hall, History.setUnreadMentionsCount,
          Finset.mem_insert_self]
    · by_cases hemp : h.unreadMentions = ∅
      · have hall0 : ¬(c ≤ 0) := by
          simp [hemp] at hall
          omega
        cases type <;> simp [hpeer', hemp, hall0]
      · cases type <;> simp [hpeer', hall, hemp, Finset.mem_insert_self]

/-- Witness for C1 as amended: below the total, an `Existing` id is
accepted into the set; at the total, a `New` id is accepted. -/
theorem claim_C1_witness :
    (({ H0 with unreadMentionsCount := some 2, unreadMentions := {5} } :
        History).addToUnreadMentions 7 .Existing).2 = true ∧
      (({ H0 with unreadMentionsCount := some 1, unreadMentions := {5} } :
        History).addToUnreadMentions 7 .New).2 = true := by
  constructor
  · exact ((claim_C1_amended
      { H0 with unreadMentionsCount := some 2, unreadMentions := {5} } 7
      .Existing (by decide)).1).2 (by decide)
  · exact ((claim_C1_amended
      { H0 with unreadMentionsCount := some 1, unreadMentions := {5} } 7
      .New (by decide)).1).2 (by decide)

/-! ### C5: the unread count is clamped at zero -/

theorem setUnreadCount_count (h : History) (n : Int) :
    (h.setUnreadCount n).unreadCount = some n := by
  unfold History.setUnreadCount
  split
  · assumption
  · rfl

theorem changeUnreadCount_of_known (h : History) (c d : Int)
    (hc : h.unreadCount = some c) :
    (h.changeUnreadCount d).unreadCount = some (max (c + d) 0) := by
  unfold History.changeUnreadCount
  rw [hc]
  exact setUnreadCount_count _ _

/-- A sequence of `changeUnreadCount` calls. -/
def History.applyUnreadDeltas (h : History) (ds : List Int) : History :=
  ds.foldl History.changeUnreadCount h

/-- The clamped fold the delta sequence computes on the stored count. -/
def foldClamp (c : Int) (ds : List Int) : Int :=
  ds.foldl (fun a d => max (a + d) 0) c

theorem applyUnreadDeltas_count (h : History) (c : Int) (ds : List Int)
    (hc : h.unreadCount = some c) :
    (h.applyUnreadDeltas ds).unreadCount = some (foldClamp c ds) := by
  induction ds generalizing h c with
  | nil => exact hc
  | cons d rest ih =>
    have hstep := changeUnreadCount_of_known h c d hc
    exact ih (h.changeUnreadCount d) (max (c + d) 0) hstep

theorem foldClamp_nonneg (c : Int) (ds : List Int) (hc : 0 ≤ c) :
    0 ≤ foldClamp c ds := by
  induction ds generalizing c with
  | nil => exact hc
  | cons d rest ih => exact ih (max (c + d) 0) (le_max_right _ _)

/-- C5.  On a known count `c ≥ 0`, `changeUnreadCount d` stores
`max (c + d) 0`, which is never negative, and any sequence of delta
applications keeps the stored count known and non-negative. -/
theorem claim_C5_theorem (h : History) (c d : Int)
    (hc : h.unreadCount = some c) (hpos : 0 ≤ c) :
    (h.changeUnreadCount d).unreadCount = some (max (c + d) 0) ∧
      0 ≤ max (c + d) 0 ∧
      (∀ ds : List Int,
        (h.applyUnreadDeltas ds).unreadCount = some (foldClamp c ds) ∧
          0 ≤ foldClamp c ds) :=
  ⟨changeUnreadCount_of_known h c d hc, le_max_right _ _,
    fun ds =>
      ⟨applyUnreadDeltas_count h c ds hc, foldClamp_nonneg c ds hpos⟩⟩

/-- Witness for C5: `changeUnreadCount (-5)` on a count of `2` yields `0`,
not `-3`. -/
theorem claim_C5_witness :
    (({ H0 with unreadCount := some 2 } : History).changeUnreadCount
        (-5)).unreadCount = some 0 := by
  have h :=
    (claim_C5_theorem { H0 with unreadCount := some 2 } 2 (-5) rfl
      (by decide)).1
  norm_num at h
  exact h

/-! ### C8: cloud-draft promotion -/

/-- C8.  Promoting a dated, non-null cloud draft overwrites the local
draft's content exactly when the local draft is null (in the source's
`draftIsNull` sense), undated, or not newer than the cloud draft, and the
resulting local draft carries the cloud draft's date; a strictly older
cloud draft leaves the window unchanged. -/
theorem claim_C8_theorem (h : History) (d : Draft)
    (hc : h.cloudDraft = some d) :
    ((draftIsNull (some d) = false → d.date ≠ 0 →
      (h.localDraft = none ∨
        (∃ e, h.localDraft = some e ∧
          (draftIsNull (some e) = true ∨ e.date = 0 ∨ d.date ≥ e.date))) →
      (h.createLocalDraftFromCloud).localDraft =
        some
          { textWithTags := d.textWithTags
            msgId := d.msgId
            cursor := d.cursor
            previewCancelled := d.previewCancelled
            date := d.date }))
    ∧ (∀ e, h.localDraft = some e → draftIsNull (some e) = false →
        e.date ≠ 0 → d.date < e.date → h.createLocalDraftFromCloud = h) := by
  constructor
  · intro hnd hdd hcond
    simp only [History.createLocalDraftFromCloud, hc]
    rw [if_neg (by simp [hnd, hdd])]
    rcases hcond with hnone | ⟨e, he, hcase⟩
    · rw [hnone]
      simp
    · rw [he, if_pos (decide_eq_true hcase)]
  · intro e he hnull hdate hlt
    simp only [History.createLocalDraftFromCloud, hc, he]
    by_cases hguard : draftIsNull (some d) = true ∨ d.date = 0
    · rw [if_pos hguard]
    · have hcond :
        ¬(decide (draftIsNull (some e) = true ∨ e.date = 0 ∨ d.date ≥ e.date) =
            true) := by
        simp only [decide_eq_true_eq]
        intro hx
        rcases hx with hx | hx | hx
        · rw [hnull] at hx
          exact absurd hx (by simp)
        · exact hdate hx
        · exact absurd hx (not_le.mpr hlt)
      rw [if_neg hguard, if_neg hcond]

/-- The cloud draft of the C8 witness scenario (timestamp `200`). -/
def C8cloud : Draft where
  textWithTags := "cloud"
  msgId := 0
  cursor := { position := 0, anchor := 0, scroll := 0 }
  previewCancelled := false
  date := 200

/-- The local draft of the C8 witness scenario (timestamp `100`). -/
def C8local : Draft where
  textWithTags := "local"
  msgId := 0
  cursor := { position := 0, anchor := 0, scroll := 0 }
  previewCancelled := false
  date := 100

/-- The window of the C8 witness scenario. -/
def C8window : History :=
  { H0 with cloudDraft := some C8cloud, localDraft := some C8local }

/-- Witness for C8: a cloud draft dated `200` overwrites a differing local
draft dated `100`, and the local draft's date becomes `200`. -/
theorem claim_C8_witness :
    (C8window.createLocalDraftFromCloud).localDraft =
      some
        { textWithTags := "cloud", msgId := 0,
          cursor := { position := 0, anchor := 0, scroll := 0 },
          previewCancelled := false, date := 200 } := by
  exact
    (claim_C8_theorem C8window C8cloud rfl).1 (by decide) (by decide)
      (Or.inr ⟨C8local, rfl, Or.inr (Or.inr (by decide))⟩)

/-! ### C10: bot conversations start with a saturated outbox cursor -/

/-- C10.  For a bot-user peer the constructor stores the maximal message
id as the outbox read-before cursor, so `isServerSideUnread` answers
`false` for every outbound item with a server-assigned id. -/
theorem claim_C10_theorem (p : Peer) (item : Item)
    (hbot : p.isBotUser = true) (hout : item.out = true)
    (hsrv : IsServerMsgId item.id) :
    (History.init p).outboxReadBefore = some MsgIdMax ∧
      (History.init p).isServerSideUnread item = some false := by
  have hob : (History.init p).outboxReadBefore = some MsgIdMax := by
    simp [History.init, hbot]
  refine ⟨hob, ?_⟩
  unfold History.isServerSideUnread
  rw [if_neg (not_not_intro hsrv), if_pos hout, hob]
  have hlt : ¬(item.id ≥ MsgIdMax) := by
    have h3 : ServerMaxMsgId < MsgIdMax := by decide
    exact not_le.mpr (lt_trans hsrv.2 h3)
  simp [hlt]

/-- Witness for C10: an outbound item with server id `33` in a fresh bot
conversation is reported read. -/
theorem claim_C10_witness :
    (History.init { basePeer with kind := .user true }).outboxReadBefore =
        some MsgIdMax ∧
      (History.init { basePeer with kind := .user true }).isServerSideUnread
          { baseItem with id := 33, out := true } = some false :=
  claim_C10_theorem { basePeer with kind := .user true }
    { baseItem with id := 33, out := true } (by decide) rfl (by decide)

/-! ### C9: at most one front-block build in flight -/

/-- C9.  With a front-block build in progress, both
`startBuildingFrontBlock` and `addNewItem` hit their fail-fast assertions;
with none in progress (and a positive expected count, resp. an unattached
item) both succeed — the error branch is exactly the violation of the
mutual-exclusion precondition. -/
theorem claim_C9_theorem (h : History) (n : Int) (item : Item)
    (unread : Bool) (now : Int) :
    (h.isBuildingFrontBlock →
      h.startBuildingFrontBlock n = none ∧
        h.addNewItem item unread now = none)
    ∧ (¬h.isBuildingFrontBlock → 0 < n →
        (h.startBuildingFrontBlock n).isSome = true)
    ∧ (¬h.isBuildingFrontBlock → ¬h.hasMainView item →
        (h.addNewItem item unread now).isSome = true) := by
  refine ⟨fun hb => ⟨?_, ?_⟩, fun hnb hn => ?_, fun hnb hmv => ?_⟩
  · unfold History.startBuildingFrontBlock
    rw [if_pos hb]
  · unfold History.addNewItem
    rw [if_pos hb]
  · unfold History.startBuildingFrontBlock
    rw [if_neg hnb, if_neg (not_not_intro hn)]
    rfl
  · unfold History.addNewItem
    rw [if_neg hnb]
    unfold History.addItemToBlock
    rw [if_neg hmv]
    rfl

/-- Witness for C9: with a build in flight both operations assert; on the
fresh window both succeed. -/
theorem claim_C9_witness :
    (({ H0 with
          buildingFrontBlock :=
            some { hasBlock := false, expectedItemsCount := 3 } } :
        History).startBuildingFrontBlock 2 = none ∧
      ({ H0 with
          buildingFrontBlock :=
            some { hasBlock := false, expectedItemsCount := 3 } } :
        History).addNewItem { baseItem with id := 10 } false 0 = none) ∧
      (H0.startBuildingFrontBlock 2).isSome = true ∧
      (H0.addNewItem { baseItem with id := 10 } false 0).isSome = true := by
  refine ⟨?_, ?_, ?_⟩
  · exact
      (claim_C9_theorem
        { H0 with
            buildingFrontBlock :=
              some { hasBlock := false, expectedItemsCount := 3 } } 2
        { baseItem with id := 10 } false 0).1 (by decide)
  · exact
      (claim_C9_theorem H0 2 { baseItem with id := 10 } false 0).2.1
        (by decide) (by decide)
  · exact
      (claim_C9_theorem H0 2 { baseItem with id := 10 } false 0).2.2
        (by decide) (by decide)

/-! ### C2: migration-boundary projection resolves to unknown -/

theorem itemsNewestFirst_eq (h : History) :
    h.itemsNewestFirst = h.blocks.flatten.reverse := by
  unfold History.itemsNewestFirst
  rw [List.reverse_flatten, List.map_reverse]

/-- C2.  In a legacy group whose known last message is the
migration-boundary service event, the chat-list projection computes to
unknown — rather than the migration event — whenever the window is not
loaded at bottom, or the boundary event is the only loaded item and the
window is not loaded at top. -/
theorem claim_C2_theorem (h : History) (m : Item)
    (hchat : h.peer.isChat = true)
    (hlast : h.lastMessage = some (some m))
    (hmig : m.isGroupMigrate = true)
    (hcase : h.loadedAtBottom = false ∨
      (h.blocks.flatten = [m] ∧ h.loadedAtTop = false)) :
    h.computeChatListMessageFromLast = none ∧
      (h.setChatListMessageFromLast).chatListMessage = none := by
  have hcompute : h.computeChatListMessageFromLast = none := by
    unfold History.computeChatListMessageFromLast
    rw [hlast]
    simp only [History.lastMessageGet]
    rw [if_neg (not_not_intro hmig), if_pos hchat]
    by_cases hb : h.loadedAtBottom = true
    · rw [if_neg (by simp [hb])]
      rcases hcase with hcase | ⟨hone, htop⟩
      · rw [hb] at hcase
        exact absurd hcase (by simp)
      · have hfind : h.findBeforeLast m = none := by
          unfold History.findBeforeLast
          rw [itemsNewestFirst_eq, hone]
          simp
        rw [hfind]
        simp only
        rw [if_neg (by simp [htop])]
    · have hb' : h.loadedAtBottom = false := by
        cases hx : h.loadedAtBottom
        · rfl
        · exact absurd hx hb
      rw [if_pos (by simp [hb'])]
  refine ⟨hcompute, ?_⟩
  unfold History.setChatListMessageFromLast
  rw [hcompute]

/-- Witness for C2: a window holding only the migration event, loaded at
bottom but not at top, projects to unknown. -/
theorem claim_C2_witness :
    ({ H0 with
        lastMessage := some (some { baseItem with id := 20, isGroupMigrate := true })
        blocks := [[{ baseItem with id := 20, isGroupMigrate := true }]]
        loadedAtBottom := true } :
      History).computeChatListMessageFromLast = none ∧
      (({ H0 with
          lastMessage := some (some { baseItem with id := 20, isGroupMigrate := true })
          blocks := [[{ baseItem with id := 20, isGroupMigrate := true }]]
          loadedAtBottom := true } :
        History).setChatListMessageFromLast).chatListMessage = none := by
  exact
    claim_C2_theorem _ { baseItem with id := 20, isGroupMigrate := true } rfl
      rfl rfl (Or.inr ⟨by decide, rfl⟩)

/-! ### Shape lemmas: which fields each operation can touch -/

theorem clearLastKeyboard_shape (h : History) :
    ∃ kid khid,
      h.clearLastKeyboard =
        { h with
            lastKeyboardId := kid
            lastKeyboardHiddenId := khid
            lastKeyboardInited := true
            lastKeyboardFrom := 0 } := by
  simp only [History.clearLastKeyboard]
  split
  · split
    · exact ⟨0, 0, rfl⟩
    · exact ⟨0, h.lastKeyboardHiddenId, rfl⟩
  · exact ⟨h.lastKeyboardId, h.lastKeyboardHiddenId, rfl⟩

theorem clearSendAction_shape (h : History) (fromId now : Int) :
    ∃ ty sa,
      h.clearSendAction fromId now = { h with typing := ty, sendActions := sa } := by
  simp only [History.clearSendAction]
  split
  · exact ⟨_, _, rfl⟩
  · exact ⟨h.typing, h.sendActions, rfl⟩

theorem destroyUnreadBar_shape (h : History) :
    h.destroyUnreadBar = { h with unreadBarView := none } := rfl

theorem setInboxReadTill_shape (h : History) (upTo : MsgId) :
    ∃ v, h.setInboxReadTill upTo = { h with inboxReadBefore := v } := by
  unfold History.setInboxReadTill
  split <;> exact ⟨_, rfl⟩

theorem setOutboxReadTill_shape (h : History) (upTo : MsgId) :
    ∃ v, h.setOutboxReadTill upTo = { h with outboxReadBefore := v } := by
  unfold History.setOutboxReadTill
  split <;> exact ⟨_, rfl⟩

theorem calculateFirstUnreadMessage_shape (h : History) :
    ∃ fu, h.calculateFirstUnreadMessage = { h with firstUnreadView := fu } := by
  unfold History.calculateFirstUnreadMessage
  split
  · exact ⟨h.firstUnreadView, rfl⟩
  · split
    · exact ⟨h.firstUnreadView, rfl⟩
    · exact ⟨_, rfl⟩

theorem setUnreadCount_shape (h : History) (n : Int) :
    ∃ fu ib uc,
      h.setUnreadCount n =
        { h with firstUnreadView := fu, inboxReadBefore := ib, unreadCount := uc } := by
  simp only [History.setUnreadCount]
  split
  · exact ⟨h.firstUnreadView, h.inboxReadBefore, h.unreadCount, rfl⟩
  · split
    · split
      · split
        · obtain ⟨v, hv⟩ :=
            setInboxReadTill_shape { h with firstUnreadView := h.lastAvailableMessage } _
          rw [hv]
          exact ⟨_, _, _, rfl⟩
        · exact ⟨_, _, _, rfl⟩
      · split
        · obtain ⟨v, hv⟩ := setInboxReadTill_shape h _
          rw [hv]
          exact ⟨_, _, _, rfl⟩
        · exact ⟨h.firstUnreadView, h.inboxReadBefore, _, rfl⟩
    · split
      · split
        · obtain ⟨v, hv⟩ :=
            setInboxReadTill_shape { h with firstUnreadView := none } _
          rw [hv]
          exact ⟨_, _, _, rfl⟩
        · exact ⟨_, _, _, rfl⟩
      · split
        · obtain ⟨fu, hfu⟩ := calculateFirstUnreadMessage_shape h
          rw [hfu]
          exact ⟨_, _, _, rfl⟩
        · exact ⟨h.firstUnreadView, h.inboxReadBefore, _, rfl⟩

theorem changeUnreadCount_shape (h : History) (d : Int) :
    ∃ fu ib uc,
      h.changeUnreadCount d =
        { h with firstUnreadView := fu, inboxReadBefore := ib, unreadCount := uc } := by
  unfold History.changeUnreadCount
  split
  · exact setUnreadCount_shape h _
  · exact ⟨h.firstUnreadView, h.inboxReadBefore, h.unreadCount, rfl⟩

theorem inboxRead_shape (h : History) (upTo : MsgId) :
    ∃ fu ib uc,
      h.inboxRead upTo =
        { h with firstUnreadView := fu, inboxReadBefore := ib, unreadCount := uc } := by
  simp only [History.inboxRead]
  split
  · obtain ⟨fu, ib, uc, hcu⟩ := changeUnreadCount_shape h _
    rw [hcu]
    obtain ⟨v, hv⟩ :=
      setInboxReadTill_shape
        { h with firstUnreadView := fu, inboxReadBefore := ib, unreadCount := uc } upTo
    rw [hv]
    exact ⟨_, _, _, rfl⟩
  · obtain ⟨v, hv⟩ := setInboxReadTill_shape h upTo
    rw [hv]
    exact ⟨_, _, _, rfl⟩

theorem inboxReadItem_shape (h : History) (item : Item) :
    ∃ fu ib uc,
      h.inboxReadItem item =
        { h with firstUnreadView := fu, inboxReadBefore := ib, unreadCount := uc } := by
  unfold History.inboxReadItem
  split
  · exact inboxRead_shape h _
  · exact ⟨h.firstUnreadView, h.inboxReadBefore, h.unreadCount, rfl⟩

theorem outboxReadItem_shape (h : History) (item : Item) :
    ∃ ob, h.outboxReadItem item = { h with outboxReadBefore := ob } := by
  unfold History.outboxReadItem History.outboxRead
  split
  · exact setOutboxReadTill_shape h _
  · exact ⟨h.outboxReadBefore, rfl⟩

theorem newItemAdded_shape (h : History) (item : Item) (now : Int) :
    ∃ ty sa ub ob fu ib uc no,
      h.newItemAdded item now =
        { h with
            typing := ty
            sendActions := sa
            unreadBarView := ub
            outboxReadBefore := ob
            firstUnreadView := fu
            inboxReadBefore := ib
            unreadCount := uc
            notifies := no } := by
  simp only [History.newItemAdded]
  have hcs :
      ∃ ty sa,
        (if item.fromId ≠ 0 ∧ item.fromIsUser = true ∧ item.fromId = item.authorId
          then h.clearSendAction item.fromId now
          else h) =
          { h with typing := ty, sendActions := sa } := by
    split
    · exact clearSendAction_shape h item.fromId now
    · exact ⟨h.typing, h.sendActions, rfl⟩
  obtain ⟨ty, sa, hval⟩ := hcs
  rw [hval]
  split
  · split
    · obtain ⟨ob, hob⟩ :=
        outboxReadItem_shape
          ({ h with typing := ty, sendActions := sa } :
            History).destroyUnreadBar item
      rw [destroyUnreadBar_shape] at hob
      rw [destroyUnreadBar_shape, hob]
      exact ⟨_, _, _, _, _, _, _, _, rfl⟩
    · rw [destroyUnreadBar_shape]
      exact ⟨_, _, _, _, _, _, _, _, rfl⟩
  · split
    · split
      · exact ⟨_, _, _, _, _, _, _, _, rfl⟩
      · exact ⟨ty, sa, h.unreadBarView, h.outboxReadBefore, h.firstUnreadView,
          h.inboxReadBefore, h.unreadCount, h.notifies, rfl⟩
    · obtain ⟨fu, ib, uc, hr⟩ :=
        inboxReadItem_shape
          ({ h with typing := ty, sendActions := sa } : History) item
      rw [hr]
      exact ⟨_, _, _, _, _, _, _, _, rfl⟩

theorem setChatListMessage_shape (h : History) (item : Option Item) :
    ∃ cm ct,
      h.setChatListMessage item =
        { h with chatListMessage := cm, chatListTimeId := ct } := by
  simp only [History.setChatListMessage]
  split
  · exact ⟨h.chatListMessage, h.chatListTimeId, rfl⟩
  · split
    · split
      · exact ⟨h.chatListMessage, h.chatListTimeId, rfl⟩
      · exact ⟨_, _, rfl⟩
    · exact ⟨_, h.chatListTimeId, rfl⟩

theorem setChatListMessageFromLast_shape (h : History) :
    ∃ cm ct,
      h.setChatListMessageFromLast =
        { h with chatListMessage := cm, chatListTimeId := ct } := by
  unfold History.setChatListMessageFromLast
  split
  · exact setChatListMessage_shape h _
  · exact ⟨_, h.chatListTimeId, rfl⟩

theorem requestChatListMessage_shape (h : History) :
    ∃ cm ct,
      h.requestChatListMessage =
        { h with chatListMessage := cm, chatListTimeId := ct } := by
  unfold History.requestChatListMessage
  split
  · exact ⟨h.chatListMessage, h.chatListTimeId, rfl⟩
  · split
    · exact ⟨h.chatListMessage, h.chatListTimeId, rfl⟩
    · exact setChatListMessageFromLast_shape h

theorem setLastMessage_shape (h : History) (item : Option Item) :
    ∃ lm cm ct,
      h.setLastMessage item =
        { h with lastMessage := lm, chatListMessage := cm, chatListTimeId := ct } := by
  simp only [History.setLastMessage]
  split
  · exact ⟨h.lastMessage, h.chatListMessage, h.chatListTimeId, rfl⟩
  · split
    · exact ⟨_, _, h.chatListTimeId, rfl⟩
    · obtain ⟨cm, ct, hr⟩ :=
        requestChatListMessage_shape
          ({ h with lastMessage := some item, chatListMessage := none } : History)
      rw [hr]
      exact ⟨_, _, _, rfl⟩

@[simp]
theorem setLastMessage_blocks (h : History) (i : Option Item) :
    (h.setLastMessage i).blocks = h.blocks := by
  obtain ⟨lm, cm, ct, hs⟩ := setLastMessage_shape h i
  rw [hs]

@[simp]
theorem setLastMessage_loadedAtTop (h : History) (i : Option Item) :
    (h.setLastMessage i).loadedAtTop = h.loadedAtTop := by
  obtain ⟨lm, cm, ct, hs⟩ := setLastMessage_shape h i
  rw [hs]

@[simp]
theorem setLastMessage_loadedAtBottom (h : History) (i : Option Item) :
    (h.setLastMessage i).loadedAtBottom = h.loadedAtBottom := by
  obtain ⟨lm, cm, ct, hs⟩ := setLastMessage_shape h i
  rw [hs]

@[simp]
theorem newItemAdded_blocks (h : History) (i : Item) (now : Int) :
    (h.newItemAdded i now).blocks = h.blocks := by
  obtain ⟨ty, sa, ub, ob, fu, ib, uc, no, hs⟩ := newItemAdded_shape h i now
  rw [hs]

@[simp]
theorem newItemAdded_loadedAtTop (h : History) (i : Item) (now : Int) :
    (h.newItemAdded i now).loadedAtTop = h.loadedAtTop := by
  obtain ⟨ty, sa, ub, ob, fu, ib, uc, no, hs⟩ := newItemAdded_shape h i now
  rw [hs]

@[simp]
theorem newItemAdded_loadedAtBottom (h : History) (i : Item) (now : Int) :
    (h.newItemAdded i now).loadedAtBottom = h.loadedAtBottom := by
  obtain ⟨ty, sa, ub, ob, fu, ib, uc, no, hs⟩ := newItemAdded_shape h i now
  rw [hs]

/-! ### C3: ingestion while not loaded at bottom -/

/-- Counterexample to C3 as stated: a new already-read outbound message
ingested with the unread type while the window is not loaded at bottom
advances the outbox read cursor — Window state beyond `lastMessage`
changes (the new-item side effects still run). -/
theorem claim_C3_counterexample :
    ((({ H0 with outboxReadBefore := some 3 } : History).addNewMessage
          { baseItem with id := 10, out := true } .Unread 0).map
        (fun p => p.1.outboxReadBefore)) = some (some 11) ∧
      ({ H0 with outboxReadBefore := some 3 } : History).outboxReadBefore =
        some 3 ∧
      ({ H0 with outboxReadBefore := some 3 } : History).loadedAtBottom =
        false := by
  decide

/-- C3 as amended.  While the window is not loaded at bottom, ingesting a
new message with a non-existing type creates and returns the Item without
appending it to any Block: the result is exactly `setLastMessage` followed
— for the unread type — by the new-item side effects (`newItemAdded`);
blocks and loaded-edge flags are unchanged, and for the non-unread type
only the last-message and chat-list projection state can change. -/
theorem claim_C3_amended (h : History) (msg : Item) (type : NewMessageType)
    (now : Int) (hb : h.loadedAtBottom = false)
    (ht : type ≠ .Existing) (hid : msg.id ≠ 0) :
    ∃ h₂,
      h.addNewMessage msg type now = some (h₂, some msg) ∧
        h₂ =
          (if type = .Unread then
            (h.setLastMessage (some msg)).newItemAdded msg now
          else h.setLastMessage (some msg)) ∧
        h₂.blocks = h.blocks ∧
        h₂.loadedAtTop = h.loadedAtTop ∧
        h₂.loadedAtBottom = h.loadedAtBottom ∧
        (type = .Last →
          ∃ lm cm ct,
            h₂ =
              { h with
                  lastMessage := lm
                  chatListMessage := cm
                  chatListTimeId := ct }) := by
  have hmain :
      h.addNewMessage msg type now =
        some
          ((if type = .Unread then
              (h.setLastMessage (some msg)).newItemAdded msg now
            else h.setLastMessage (some msg)),
            some msg) := by
    simp only [History.addNewMessage, History.addToHistory]
    rw [if_neg ht, if_pos (Or.inl (by simp [hb])), if_neg hid]
  refine ⟨_, hmain, rfl, ?_, ?_, ?_, ?_⟩
  · split <;> simp
  · split <;> simp
  · split <;> simp
  · intro hlastType
    rw [if_neg (by rw [hlastType]; exact fun hx => nomatch hx)]
    exact setLastMessage_shape h (some msg)

/-- Witness for C3 as amended, at the counterexample's input. -/
theorem claim_C3_witness :
    ∃ h₂,
      ({ H0 with outboxReadBefore := some 3 } : History).addNewMessage
          { baseItem with id := 10, out := true } .Unread 0 =
        some (h₂, some { baseItem with id := 10, out := true }) ∧
        h₂.blocks = ({ H0 with outboxReadBefore := some 3 } : History).blocks := by
  obtain ⟨h₂, heq, hcomp, hblocks, hrest⟩ :=
    claim_C3_amended { H0 with outboxReadBefore := some 3 }
      { baseItem with id := 10, out := true } .Unread 0 (by decide)
      (by decide) (by decide)
  exact ⟨h₂, heq, hblocks⟩

/-! ### C6 support: flags survive the joined-message machinery -/

theorem insertMegagroupBot_shape (h : History) (item : Item) :
    ∃ pe, h.insertMegagroupBot item = { h with peer := pe } := by
  unfold History.insertMegagroupBot
  split
  · exact ⟨_, rfl⟩
  · exact ⟨h.peer, rfl⟩

theorem insertMarkupSender_shape (h : History) (item : Item) :
    ∃ pe, h.insertMarkupSender item = { h with peer := pe } := by
  unfold History.insertMarkupSender
  split
  · exact ⟨_, rfl⟩
  · exact ⟨h.peer, rfl⟩

theorem applyNewKeyboardRule_shape (h : History) (item : Item) :
    ∃ pe ki ku kid khid kfr,
      h.applyNewKeyboardRule item =
        { h with
            peer := pe
            lastKeyboardInited := ki
            lastKeyboardUsed := ku
            lastKeyboardId := kid
            lastKeyboardHiddenId := khid
            lastKeyboardFrom := kfr } := by
  simp only [History.applyNewKeyboardRule]
  obtain ⟨pe, hms⟩ := insertMarkupSender_shape h item
  rw [hms]
  split
  · split
    · split
      · split
        · obtain ⟨kid, khid, hk⟩ :=
            clearLastKeyboard_shape ({ h with peer := pe } : History)
          rw [hk]
          exact ⟨_, _, _, _, _, _, rfl⟩
        · exact ⟨pe, _, _, _, _, _, rfl⟩
      · split
        · obtain ⟨kid, khid, hk⟩ :=
            clearLastKeyboard_shape ({ h with peer := pe } : History)
          rw [hk]
          exact ⟨_, _, _, _, _, _, rfl⟩
        · exact ⟨_, _, _, _, _, _, rfl⟩
    · exact ⟨h.peer, _, _, _, _, _, rfl⟩
  · exact ⟨h.peer, _, _, _, _, _, rfl⟩

theorem newItemAuthorUpdates_shape (h : History) (item : Item) :
    ∃ pe ki ku kid khid kfr,
      h.newItemAuthorUpdates item =
        { h with
            peer := pe
            lastKeyboardInited := ki
            lastKeyboardUsed := ku
            lastKeyboardId := kid
            lastKeyboardHiddenId := khid
            lastKeyboardFrom := kfr } := by
  unfold History.newItemAuthorUpdates
  obtain ⟨pe, hmb⟩ := insertMegagroupBot_shape h item
  rw [hmb]
  obtain ⟨pe2, ki, ku, kid, khid, kfr, hkr⟩ :=
    applyNewKeyboardRule_shape ({ h with peer := pe } : History) item
  rw [hkr]
  exact ⟨_, _, _, _, _, _, rfl⟩

theorem addItemToBlockUnchecked_shape (h : History) (item : Item) :
    ∃ bl bfb,
      h.addItemToBlockUnchecked item =
        { h with blocks := bl, buildingFrontBlock := bfb } := by
  simp only [History.addItemToBlockUnchecked]
  split
  · exact ⟨_, _, rfl⟩
  · split
    · exact ⟨_, _, rfl⟩
    · split
      · exact ⟨_, _, rfl⟩
      · exact ⟨_, _, rfl⟩

theorem addNewInTheMiddle_shape (h : History) (item : Item)
    (bIdx iIdx : Nat) :
    ∃ bl, h.addNewInTheMiddle item bIdx iIdx = { h with blocks := bl} :=
  ⟨_, rfl⟩

@[simp]
theorem newItemAuthorUpdates_loadedAtTop (h : History) (i : Item) :
    (h.newItemAuthorUpdates i).loadedAtTop = h.loadedAtTop := by
  obtain ⟨pe, ki, ku, kid, khid, kfr, hs⟩ := newItemAuthorUpdates_shape h i
  rw [hs]

@[simp]
theorem newItemAuthorUpdates_loadedAtBottom (h : History) (i : Item) :
    (h.newItemAuthorUpdates i).loadedAtBottom = h.loadedAtBottom := by
  obtain ⟨pe, ki, ku, kid, khid, kfr, hs⟩ := newItemAuthorUpdates_shape h i
  rw [hs]

@[simp]
theorem addItemToBlockUnchecked_loadedAtTop (h : History) (i : Item) :
    (h.addItemToBlockUnchecked i).loadedAtTop = h.loadedAtTop := by
  obtain ⟨bl, bfb, hs⟩ := addItemToBlockUnchecked_shape h i
  rw [hs]

@[simp]
theorem addItemToBlockUnchecked_loadedAtBottom (h : History) (i : Item) :
    (h.addItemToBlockUnchecked i).loadedAtBottom = h.loadedAtBottom := by
  obtain ⟨bl, bfb, hs⟩ := addItemToBlockUnchecked_shape h i
  rw [hs]

theorem addNewItem_exists (h : History) (item : Item) (unread : Bool)
    (now : Int) (hbui : h.buildingFrontBlock = none)
    (hmv : ¬h.hasMainView item) :
    ∃ h',
      h.addNewItem item unread now = some h' ∧
        h'.loadedAtTop = h.loadedAtTop ∧
        h'.loadedAtBottom = h.loadedAtBottom := by
  unfold History.addNewItem History.addItemToBlock
  rw [if_neg (by simp [History.isBuildingFrontBlock, hbui]), if_neg hmv]
  refine ⟨_, rfl, ?_, ?_⟩ <;>
    · split <;> split <;> simp

theorem startBuildingFrontBlock_eq (h : History) (n : Int)
    (hbui : h.buildingFrontBlock = none) (hn : 0 < n) :
    h.startBuildingFrontBlock n =
      some
        { h with
            buildingFrontBlock :=
              some { hasBlock := false, expectedItemsCount := n } } := by
  unfold History.startBuildingFrontBlock
  rw [if_neg (by simp [History.isBuildingFrontBlock, hbui]),
    if_neg (not_not_intro hn)]

theorem addItemToBlockUnchecked_building_some (h : History) (item : Item)
    (bb : BuildingBlock) (hbb : h.buildingFrontBlock = some bb) :
    ∃ bb2, (h.addItemToBlockUnchecked item).buildingFrontBlock = some bb2 := by
  simp only [History.addItemToBlockUnchecked]
  rw [hbb]
  exact ⟨_, rfl⟩

theorem finishBuildingFrontBlock_eq (h : History) (bb : BuildingBlock)
    (hbb : h.buildingFrontBlock = some bb) :
    h.finishBuildingFrontBlock = some { h with buildingFrontBlock := none } := by
  unfold History.finishBuildingFrontBlock
  rw [if_neg (by simp [History.isBuildingFrontBlock, hbb])]

@[simp]
theorem addNewInTheMiddle_loadedAtTop (h : History) (i : Item)
    (b j : Nat) : (h.addNewInTheMiddle i b j).loadedAtTop = h.loadedAtTop :=
  rfl

@[simp]
theorem addNewInTheMiddle_loadedAtBottom (h : History) (i : Item)
    (b j : Nat) :
    (h.addNewInTheMiddle i b j).loadedAtBottom = h.loadedAtBottom :=
  rfl

theorem insertJoinedMessage_exists (h : History) (u : Bool) (now : Int)
    (hbui : h.buildingFrontBlock = none)
    (hfresh :
      GenerateJoinedMessage h.peer.inviteDate h.peer.inviter ∉
        h.blocks.flatten) :
    ∃ h' ok,
      h.insertJoinedMessage u now = some (h', ok) ∧
        h'.loadedAtTop = h.loadedAtTop ∧
        h'.loadedAtBottom = h.loadedAtBottom := by
  simp only [History.insertJoinedMessage]
  split
  · exact ⟨_, _, rfl, rfl, rfl⟩
  · split
    · exact ⟨_, _, rfl, rfl, rfl⟩
    · split
      · rename_i hblocks
        have hmv :
            ¬({ h with
                joinedMessage :=
                  some (GenerateJoinedMessage h.peer.inviteDate h.peer.inviter) } :
                History).hasMainView
              (GenerateJoinedMessage h.peer.inviteDate h.peer.inviter) := by
          unfold History.hasMainView
          simp [hblocks, GenerateJoinedMessage]
        obtain ⟨h', heq, ht, hb⟩ :=
          addNewItem_exists _ _ _ now (by simpa using hbui) hmv
        rw [heq]
        exact ⟨h', true, rfl, by simpa using ht, by simpa using hb⟩
      · split
        · exact ⟨_, _, rfl, rfl, rfl⟩
        · repeat' split
          all_goals
            exact ⟨_, _, rfl, by first | rfl | simp, by first | rfl | simp⟩
        · have hstart := startBuildingFrontBlock_eq h 1 hbui (by norm_num)
          simp only [hstart]
          have hmv2 :
              ¬({ h with
                    buildingFrontBlock :=
                      some { hasBlock := false, expectedItemsCount := 1 }
                    joinedMessage :=
                      some
                        (GenerateJoinedMessage h.peer.inviteDate
                          h.peer.inviter) } :
                  History).hasMainView
                (GenerateJoinedMessage h.peer.inviteDate h.peer.inviter) := by
            unfold History.hasMainView
            intro hx
            rcases hx with hmem | hmv
            · exact hfresh (by simpa using hmem)
            · simp [GenerateJoinedMessage] at hmv
          have haib :
              ({ h with
                    buildingFrontBlock :=
                      some { hasBlock := false, expectedItemsCount := 1 }
                    joinedMessage :=
                      some
                        (GenerateJoinedMessage h.peer.inviteDate
                          h.peer.inviter) } :
                  History).addItemToBlock
                (GenerateJoinedMessage h.peer.inviteDate h.peer.inviter) =
              some
                (({ h with
                      buildingFrontBlock :=
                        some { hasBlock := false, expectedItemsCount := 1 }
                      joinedMessage :=
                        some
                          (GenerateJoinedMessage h.peer.inviteDate
                            h.peer.inviter) } :
                    History).addItemToBlockUnchecked
                  (GenerateJoinedMessage h.peer.inviteDate h.peer.inviter)) := by
            unfold History.addItemToBlock
            rw [if_neg hmv2]
          simp only [haib]
          obtain ⟨bb2, hbb2⟩ :=
            addItemToBlockUnchecked_building_some
              ({ h with
                    buildingFrontBlock :=
                      some { hasBlock := false, expectedItemsCount := 1 }
                    joinedMessage :=
                      some
                        (GenerateJoinedMessage h.peer.inviteDate
                          h.peer.inviter) } : History)
              (GenerateJoinedMessage h.peer.inviteDate h.peer.inviter)
              { hasBlock := false, expectedItemsCount := 1 } rfl
          simp only [finishBuildingFrontBlock_eq _ bb2 hbb2]
          exact ⟨_, _, rfl, by simp, by simp⟩

theorem checkJoinedMessage_guard (h : History) (u : Bool) (now : Int)
    (hg : ¬h.peer.isChannel = true ∨ h.joinedMessage ≠ none ∨
      h.peer.inviter ≤ 0) :
    h.checkJoinedMessage u now = some h := by
  unfold History.checkJoinedMessage
  rw [if_pos hg]

theorem checkJoinedMessage_exists (h : History) (u : Bool) (now : Int)
    (hbui : h.buildingFrontBlock = none)
    (hfresh :
      GenerateJoinedMessage h.peer.inviteDate h.peer.inviter ∉
        h.blocks.flatten) :
    ∃ h',
      h.checkJoinedMessage u now = some h' ∧
        h'.loadedAtTop = h.loadedAtTop ∧
        h'.loadedAtBottom = h.loadedAtBottom := by
  simp only [History.checkJoinedMessage]
  split
  · exact ⟨h, rfl, rfl, rfl⟩
  · split
    · obtain ⟨h1, ok, heq, ht, hb⟩ :=
        insertJoinedMessage_exists h u now hbui hfresh
      simp only [heq]
      split
      · exact ⟨_, rfl, by simp [ht], by simp [hb]⟩
      · exact ⟨h1, rfl, ht, hb⟩
    · by_cases hempty : h.blocks = []
      · simp only [if_pos hempty]
        rw [if_neg (by simp)]
        exact ⟨h, rfl, rfl, rfl⟩
      · simp only [if_neg hempty]
        split
        · obtain ⟨h1, ok, heq, ht, hb⟩ :=
            insertJoinedMessage_exists h
              (decide
                (u = true ∧
                  h.peer.inviteDate ≥
                    ((h.blocks.getLastD []).getLastD
                        (GenerateJoinedMessage 0 0)).date))
              now hbui hfresh
          simp only [heq]
          split
          · exact ⟨_, rfl, by simp [ht], by simp [hb]⟩
          · exact ⟨h1, rfl, ht, hb⟩
        · exact ⟨h, rfl, rfl, rfl⟩

theorem checkJoinedMessage_freshWindow (h : History) (u : Bool) (now : Int)
    (hblocks : h.blocks = []) (hb : h.loadedAtBottom = false) :
    h.checkJoinedMessage u now = some h := by
  unfold History.checkJoinedMessage
  split
  · rfl
  · rw [if_neg (by simp [hb]), if_neg (by simp [hblocks])]

/-! ### C6: splicing an empty older page -/

/-- The channel peer of the C6 counterexample: member, inviter `7` known,
invited at time `100`. -/
def chanPeer : Peer :=
  { basePeer with
      kind := .channel false
      inviter := 7
      inviterLoaded := true
      inviteDate := 100 }

/-- An item dated before the invite time. -/
def itemA : Item := { baseItem with id := 10, date := 50 }

/-- An item dated after the invite time. -/
def itemB : Item := { baseItem with id := 11, date := 200 }

/-- The channel window of the C6 counterexample: one existing block with
two items around the invite date. -/
def hC6state : History :=
  { History.init chanPeer with blocks := [[itemA, itemB]], chatListTimeId := 200 }

/-- Counterexample to C6 as stated: splicing an empty older page into a
channel window with a known inviter splices the synthesized "user joined"
service event into the middle of the existing block — the existing Block
does not stay unchanged. -/
theorem claim_C6_counterexample :
    ((hC6state.addOlderSlice [] 0).map History.blocks) =
        some [[itemA, GenerateJoinedMessage 100 7, itemB]] ∧
      hC6state.blocks = [[itemA, itemB]] := by
  constructor
  · decide
  · rfl

/-- C6 as amended.  Splicing an empty older page (with no front-block
build in flight, and the synthesized joined message fresh) sets
`loadedAtTop = true` and never changes `loadedAtBottom`; unless the peer
is a channel with a known inviter and no joined message yet — where
`checkJoinedMessage` may additionally splice a "user joined" service event
— nothing else changes; in particular on a fresh Window (no blocks, not
loaded at bottom) the only change is `loadedAtTop := true`. -/
theorem claim_C6_amended (h : History) (now : Int)
    (hbui : h.buildingFrontBlock = none)
    (hfresh :
      GenerateJoinedMessage h.peer.inviteDate h.peer.inviter ∉
        h.blocks.flatten) :
    ∃ h',
      h.addOlderSlice [] now = some h' ∧
        h'.loadedAtTop = true ∧
        h'.loadedAtBottom = h.loadedAtBottom ∧
        ((¬h.peer.isChannel = true ∨ h.joinedMessage ≠ none ∨
            h.peer.inviter ≤ 0) →
          h' = { h with loadedAtTop := true }) ∧
        (h.blocks = [] → h.loadedAtBottom = false →
          h' = { h with loadedAtTop := true }) := by
  have step :
      h.addOlderSlice [] now =
        ({ h with loadedAtTop := true } : History).checkJoinedMessage false
          now := by
    unfold History.addOlderSlice
    rw [if_pos rfl]
  obtain ⟨h', heq, ht, hb⟩ :=
    checkJoinedMessage_exists ({ h with loadedAtTop := true } : History) false
      now (by simpa using hbui) (by simpa using hfresh)
  refine ⟨h', by rw [step, heq], by simpa using ht, by simpa using hb, ?_, ?_⟩
  · intro hg
    have h2 :=
      (checkJoinedMessage_guard ({ h with loadedAtTop := true } : History)
          false now (by simpa using hg)).symm.trans heq
    exact (Option.some.inj h2).symm
  · intro hblocks hbot
    have h2 :=
      (checkJoinedMessage_freshWindow
          ({ h with loadedAtTop := true } : History) false now
          (by simpa using hblocks) (by simpa using hbot)).symm.trans heq
    exact (Option.some.inj h2).symm

/-- Witness for C6 as amended: the fresh legacy-group window gets
`loadedAtTop := true` and nothing else. -/
theorem claim_C6_witness :
    H0.addOlderSlice [] 0 = some { H0 with loadedAtTop := true } := by
  obtain ⟨h', heq, ht, hb, hguard, hfreshWin⟩ :=
    claim_C6_amended H0 0 rfl (by decide)
  rw [heq, hfreshWin rfl rfl]

end Tdesktop
